import Mathlib

/-!
Shallow embedding of the Laundry-Booking-API data-access layer
(`src/integration/LaundryDAO.js`) together with the parts of the data model it
operates on, and proofs checking the specification's claims against it.

Modelling conventions:
* Database rows are Lean structures; the database is a `DbState` record of row
  lists.  SQL `SELECT`s become list traversals (`find?`, `filter`, `filterMap`)
  over those lists; result row order is list order.
* `YYYY-MM-DD` date strings compare character-wise in the code (both in JS and
  in SQL); for well-formed dates that order coincides with chronological order,
  so dates are carried as an integer `serial`.  The `dayjs`-derived week and
  month of a request date are carried alongside in `DateVal`; the
  `dayjs`-computed values for the current instant live in `Env`.
* `HH-HH` pass ranges stay strings, because the code compares them both as raw
  strings (SQL `pass.range >= $2`) and by parsed end hour
  (`parseInt(range.substring(3,5))`, `SUBSTRING(pass.range, 4, 5)::INT`).
* Status-code enumerations (`bookingStatusCodes.js`, `scheduleStatusCodes.js`,
  `privilegeEnum.js`, `slotStatusEnum.js`) are inductive types; the
  `emptyParamEnum` placeholder values are modelled as `none` of option types.
  DTOs are plain records carrying the fields the DAO assigns (constructor-side
  runtime validation differs between drifted DTO versions in the repository and
  is not part of the DAO logic under check).
* Every operation is modelled on its exception-free executions: a pure function
  from `Env × DbState` (and arguments) to a result and the successor state.
  The failure/rollback behaviour of `_executeQuery` is modelled separately
  (`executeQuery` below) since it concerns the transport, not the business
  logic.
-/

namespace Laundry

/-- Privilege levels (`privilegeEnum.js`). -/
inductive Privilege
  | Invalid
  | Standard
  | Administrator
deriving DecidableEq, Repr

/-- Booking result statuses (`bookingStatusCodes.js`). -/
inductive BookingStatus
  | OK
  | InvalidUser
  | InvalidPassInfo
  | ExistentActivePass
  | PassCountExceeded
  | BookedPass
  | LockedPass
  | InvalidDate
  | NoBooking
deriving DecidableEq, Repr

/-- Week-schedule result statuses (`scheduleStatusCodes.js`). -/
inductive ScheduleStatus
  | OK
  | InvalidUser
  | InvalidPrivilege
  | InvalidWeek
deriving DecidableEq, Repr

/-- Slot display statuses (`slotStatusEnum.js`). -/
inductive SlotStatus
  | Available
  | Taken
  | SelfBooking
deriving DecidableEq, Repr

/-- A row of the `person` table. -/
structure PersonRow where
  id : Int
  email : String
  privilegeId : Privilege
deriving DecidableEq, Repr

/-- A row of the `account` table. -/
structure AccountRow where
  id : Int
  username : String
  personId : Int
deriving DecidableEq, Repr

/-- A row of `pass_schedule` joined with its `pass` row: the static slot
configuration (room number and `HH-HH` time range). -/
structure PassScheduleRow where
  id : Int
  room : Int
  range : String
deriving DecidableEq, Repr

/-- A row of the `pass_booking` table (dates as chronological serials). -/
structure BookingRow where
  id : Int
  date : Int
  accountId : Int
  passScheduleId : Int
deriving DecidableEq, Repr

/-- A row of the `pass_lock` table; `lockStart` is a timestamp in seconds. -/
structure LockRow where
  lockStart : Int
  passDate : Int
  accountId : Int
  passScheduleId : Int
deriving DecidableEq, Repr

/-- The stored state the DAO reads and writes.  `nextBookingId` models the
serial primary key of `pass_booking`. -/
structure DbState where
  persons : List PersonRow
  accounts : List AccountRow
  passSchedules : List PassScheduleRow
  bookings : List BookingRow
  locks : List LockRow
  nextBookingId : Int
deriving DecidableEq, Repr

/-- A request date together with the values `dayjs` derives from it:
`dayjs(date).week()` and `dayjs(date).month()`. -/
structure DateVal where
  serial : Int
  week : Int
  month : Int
deriving DecidableEq, Repr

/-- The ambient clock/calendar facts an execution reads: today's date (with its
`dayjs().week()`), `dayjs().hour()`, `NOW()` in seconds, and the
`dayjs`-computed week dates and month boundaries (`_getWeekDates`,
`_monthStartAndEndDate`, the latter including the source's
`startOf('month').add(1, 'day')` start). -/
structure Env where
  today : DateVal
  currentHour : Int
  now : Int
  weekDates : Int → List Int
  monthStart : Int → Int
  monthEnd : Int → Int

/-- `this.activePassesAllowed` (constructor, `LaundryDAO.js:52`). -/
def activePassesAllowed : Int := 1

/-- `this.totalMonthPassesAllowed` (constructor, `LaundryDAO.js:53`). -/
def totalMonthPassesAllowed : Int := 6

/-- `this.lockDuration` in minutes (constructor, `LaundryDAO.js:54`). -/
def lockDuration : Int := 5

/-- Numeric value of an ASCII digit character. -/
def digitVal (c : Char) : Int := Int.ofNat c.toNat - 48

/-- End hour of an `HH-HH` range: `parseInt(range.substring(3,5))` in
`_checkRangeHour`, and `SUBSTRING(pass.range, 4, 5)::INT` in the
`getBookedPass` query — both read the two characters after the hyphen. -/
def parseEndHour (range : String) : Int :=
  match (range.toList.drop 3).take 2 with
  | [c1, c2] => digitVal c1 * 10 + digitVal c2
  | [c1] => digitVal c1
  | _ => 0

/-- Lexicographic comparison of character lists, the order SQL uses on `text`
columns (byte-wise for the ASCII digit/hyphen strings at hand). -/
def charListLe : List Char → List Char → Bool
  | [], _ => true
  | _ :: _, [] => false
  | a :: as, b :: bs => if a < b then true else if b < a then false else charListLe as bs

/-- SQL `a >= b` on `text` columns: character-wise string comparison (the
`pass.range >= $2` filter of `_getActivePasses` compares whole `HH-HH`
strings). -/
def sqlRangeGe (a b : String) : Bool := charListLe b.toList a.toList

/-- The identity record `_getPersonInfo` builds (`PersonInfo.js`). -/
structure PersonInfo where
  accountID : Int
  personID : Int
  email : String
  privilegeID : Privilege
deriving DecidableEq, Repr

/-- `_getPersonInfo` (`LaundryDAO.js:1079-1106`): join `account` with `person`
on `person.id = account.person_id`, filtered by username; `null` when no row
matches. -/
def getPersonInfo (s : DbState) (username : String) : Option PersonInfo :=
  match s.accounts.find? (fun a => decide (a.username = username)) with
  | none => none
  | some a =>
    match s.persons.find? (fun p => decide (p.id = a.personId)) with
    | none => none
    | some p => some ⟨a.id, p.id, p.email, p.privilegeId⟩

/-- `_getPassInfo` (`LaundryDAO.js:672-698`): resolve the `pass_schedule` id of
a (room, range) pair, `-1` when no such configured slot exists. -/
def getPassInfo (s : DbState) (roomNumber : Int) (passRange : String) : Int :=
  match s.passSchedules.find?
      (fun ps => decide (ps.room = roomNumber) && decide (ps.range = passRange)) with
  | some ps => ps.id
  | none => -1

/-- `_getBookedPassID` (`LaundryDAO.js:702-728`): id of the booking occupying a
(date, schedule-slot) cell, `-1` when the cell is free. -/
def getBookedPassID (s : DbState) (date : Int) (passScheduleID : Int) : Int :=
  match s.bookings.find?
      (fun b => decide (b.date = date) && decide (b.passScheduleId = passScheduleID)) with
  | some b => b.id
  | none => -1

/-- Liveness filter of a lock row: `(NOW() - pass_lock.lock_start) <=
(lockDuration * 60) * INTERVAL '1' second`. -/
def lockLive (env : Env) (l : LockRow) : Bool :=
  decide (env.now - l.lockStart ≤ lockDuration * 60)

/-- `_getLockOwner` (`LaundryDAO.js:763-789`): account id of a live lock on the
(date, schedule-slot) cell, `-1` when none. -/
def getLockOwner (env : Env) (s : DbState) (date : Int) (passScheduleID : Int) : Int :=
  match s.locks.find?
      (fun l => decide (l.passDate = date) && decide (l.passScheduleId = passScheduleID)
        && lockLive env l) with
  | some l => l.accountId
  | none => -1

/-- The `GROUP BY pass_booking.id` of `_getActivePasses` and
`_getPeriodBookedPasses`: one result row per distinct id, each carrying
`COUNT` of that id's occurrences. -/
def groupCounts (ids : List Int) : List Int :=
  ids.dedup.map (fun i => ((ids.filter (fun j => decide (j = i))).length : Int))

/-- The range comparison applied to one booking by the `_getActivePasses`
query: join the booking to its `pass` row and require `pass.range >= $2`
(string comparison); a booking whose schedule row is missing is dropped by the
inner join. -/
def bookingRangeGe (s : DbState) (b : BookingRow) (range : String) : Bool :=
  match s.passSchedules.find? (fun ps => decide (ps.id = b.passScheduleId)) with
  | some ps => sqlRangeGe ps.range range
  | none => false

/-- The `WHERE` filter of `_getActivePasses`: the caller's bookings with
`date >= CURRENT_DATE` and `pass.range >= $2`. -/
def activePassFilter (env : Env) (s : DbState) (accountID : Int) (range : String) :
    List BookingRow :=
  s.bookings.filter (fun b =>
    decide (b.accountId = accountID) && decide (env.today.serial ≤ b.date)
      && bookingRangeGe s b range)

/-- `_getActivePasses` (`LaundryDAO.js:731-760`): runs the grouped count query
and returns `rows[0].booking_count` when any row exists, `-1` otherwise. -/
def getActivePasses (env : Env) (s : DbState) (accountID : Int) (range : String) : Int :=
  match groupCounts ((activePassFilter env s accountID range).map (fun b => b.id)) with
  | [] => -1
  | c :: _ => c

/-- The `WHERE` filter of `_getPeriodBookedPasses`: the caller's bookings with
`startPeriod <= date <= endPeriod`. -/
def periodPassFilter (s : DbState) (accountID startPeriod endPeriod : Int) :
    List BookingRow :=
  s.bookings.filter (fun b =>
    decide (b.accountId = accountID) && decide (startPeriod ≤ b.date)
      && decide (b.date ≤ endPeriod))

/-- `_getPeriodBookedPasses` (`LaundryDAO.js:941-969`): runs the grouped count
query and returns `rows[0].specific_booking_count` when any row exists, `0`
otherwise. -/
def getPeriodBookedPasses (s : DbState) (accountID startPeriod endPeriod : Int) : Int :=
  match groupCounts ((periodPassFilter s accountID startPeriod endPeriod).map
      (fun b => b.id)) with
  | [] => 0
  | c :: _ => c

/-- `_checkRangeHour` (`LaundryDAO.js:918-931`): true when the range's end hour
has not passed the current hour (`endHour >= currentHour`); the requested date
plays no part. -/
def checkRangeHour (env : Env) (range : String) : Bool :=
  decide (env.currentHour ≤ parseEndHour range)

/-- The booking-result record (`BookingDTO.js`); `none` fields model the
`emptyParamEnum` placeholder values. -/
structure BookingDTO where
  date : Option Int
  roomNumber : Option Int
  passRange : Option String
  statusCode : BookingStatus
deriving DecidableEq, Repr

/-- A `BookingDTO` whose data fields are the `emptyParamEnum` placeholders. -/
def emptyBookingDTO (code : BookingStatus) : BookingDTO := ⟨none, none, none, code⟩

/-- `unlockPass` (`LaundryDAO.js:797-822`): resolve the caller, then delete
every `pass_lock` row owned by the caller's account (idempotent); `false` when
the caller does not resolve. -/
def unlockPass (s : DbState) (username : String) : Bool × DbState :=
  match getPersonInfo s username with
  | none => (false, s)
  | some personInfo =>
    (true, { s with
      locks := s.locks.filter (fun l => decide (¬ l.accountId = personInfo.accountID)) })

/-- `lockPass` (`LaundryDAO.js:612-669`).  The source resolves the person and
slot first (each failing closed), then evaluates the helper queries against the
unchanged state and tests them in order; on success it calls `unlockPass` for
the caller and inserts the new lock row with `lock_start = NOW()`.  The helper
queries are pure reads, so inlining each value at its test preserves the
source's read-then-check order. -/
def lockPass (env : Env) (s : DbState) (username : String) (roomNumber : Int)
    (date : Int) (passRange : String) : Bool × DbState :=
  match getPersonInfo s username with
  | none => (false, s)
  | some personInfo =>
    if getPassInfo s roomNumber passRange = -1 then (false, s)
    else if checkRangeHour env passRange = false then (false, s)
    else if ¬ getBookedPassID s date (getPassInfo s roomNumber passRange) = -1 then
      (false, s)
    else if ¬ getLockOwner env s date (getPassInfo s roomNumber passRange)
          = personInfo.accountID
        ∧ ¬ getLockOwner env s date (getPassInfo s roomNumber passRange) = -1 then
      (false, s)
    else if getLockOwner env s date (getPassInfo s roomNumber passRange)
        = personInfo.accountID then (false, s)
    else if activePassesAllowed ≤ getActivePasses env s personInfo.accountID passRange then
      (false, s)
    else
      (true, { (unlockPass s username).2 with
        locks := (unlockPass s username).2.locks
          ++ [⟨env.now, date, personInfo.accountID, getPassInfo s roomNumber passRange⟩] })

/-- Append the inserted `pass_booking` row of `bookPass`'s success path. -/
def insertBooking (s : DbState) (date accountID passScheduleID : Int) : DbState :=
  { s with
    bookings := s.bookings ++ [⟨s.nextBookingId, date, accountID, passScheduleID⟩],
    nextBookingId := s.nextBookingId + 1 }

/-- `bookPass` (`LaundryDAO.js:833-915`).  Checks in source order: requested
week outside `[currentWeek, currentWeek+1]` → InvalidDate; date before today →
InvalidDate; unknown user → InvalidUser; unknown slot → InvalidPassInfo;
`_checkRangeHour` fails → InvalidPassInfo; cell already booked → BookedPass;
cell live-locked by another account → LockedPass; active-pass count at quota →
ExistentActivePass; month count at quota → PassCountExceeded; otherwise insert
the booking, release the caller's lock, and echo the booking with OK. -/
def bookPass (env : Env) (s : DbState) (username : String) (roomNumber : Int)
    (date : DateVal) (passRange : String) : BookingDTO × DbState :=
  if env.today.week > date.week ∨ date.week > env.today.week + 1 then
    (emptyBookingDTO .InvalidDate, s)
  else if date.serial < env.today.serial then (emptyBookingDTO .InvalidDate, s)
  else
    match getPersonInfo s username with
    | none => (emptyBookingDTO .InvalidUser, s)
    | some personInfo =>
      if getPassInfo s roomNumber passRange = -1 then (emptyBookingDTO .InvalidPassInfo, s)
      else if checkRangeHour env passRange = false then (emptyBookingDTO .InvalidPassInfo, s)
      else if ¬ getBookedPassID s date.serial (getPassInfo s roomNumber passRange) = -1 then
        (emptyBookingDTO .BookedPass, s)
      else if ¬ getLockOwner env s date.serial (getPassInfo s roomNumber passRange)
            = personInfo.accountID
          ∧ ¬ getLockOwner env s date.serial (getPassInfo s roomNumber passRange) = -1 then
        (emptyBookingDTO .LockedPass, s)
      else if activePassesAllowed ≤ getActivePasses env s personInfo.accountID passRange then
        (emptyBookingDTO .ExistentActivePass, s)
      else if totalMonthPassesAllowed ≤ getPeriodBookedPasses s personInfo.accountID
          (env.monthStart date.month) (env.monthEnd date.month) then
        (emptyBookingDTO .PassCountExceeded, s)
      else
        (⟨some date.serial, some roomNumber, some passRange, .OK⟩,
          (unlockPass
            (insertBooking s date.serial personInfo.accountID
              (getPassInfo s roomNumber passRange)) username).2)

/-- The rows of the `getBookedPass` query (`LaundryDAO.js:986-995`): the
caller's bookings joined to their slot configuration, filtered by
`date >= CURRENT_DATE` and `SUBSTRING(pass.range, 4, 5)::INT >=
EXTRACT('HOUR' FROM NOW())` — note the end-hour filter is unconditional, it is
not restricted to same-day bookings. -/
def activeBookingRows (env : Env) (s : DbState) (accountID : Int) :
    List (Int × Int × String) :=
  s.bookings.filterMap (fun b =>
    match s.passSchedules.find? (fun ps => decide (ps.id = b.passScheduleId)) with
    | some ps =>
      if b.accountId = accountID ∧ env.today.serial ≤ b.date
          ∧ env.currentHour ≤ parseEndHour ps.range then
        some (b.date, ps.room, ps.range)
      else none
    | none => none)

/-- `getBookedPass` (`LaundryDAO.js:977-1017`): unknown user → InvalidUser;
otherwise the first row of the active-booking query with OK, or NoBooking when
the query returns no row. -/
def getBookedPass (env : Env) (s : DbState) (username : String) : BookingDTO :=
  match getPersonInfo s username with
  | none => emptyBookingDTO .InvalidUser
  | some personInfo =>
    match activeBookingRows env s personInfo.accountID with
    | [] => emptyBookingDTO .NoBooking
    | (d, r, rg) :: _ => ⟨some d, some r, some rg, .OK⟩

/-- The `DELETE` predicate of `cancelBookedPass` (`LaundryDAO.js:1047-1058`):
matching date and slot, date not in the past, and — unless the caller is an
administrator — the booking must belong to the caller. -/
def cancelDeletePred (env : Env) (personInfo : PersonInfo) (date passScheduleID : Int)
    (b : BookingRow) : Bool :=
  decide (b.date = date) && decide (env.today.serial ≤ date)
    && decide (b.passScheduleId = passScheduleID)
    && (if personInfo.privilegeID = Privilege.Administrator then true
        else decide (b.accountId = personInfo.accountID))

/-- `cancelBookedPass` (`LaundryDAO.js:1028-1076`): resolve caller and slot
(failing closed), reject a non-administrator when `_checkRangeHour` fails, then
delete the matching booking rows and report whether any row was deleted. -/
def cancelBookedPass (env : Env) (s : DbState) (username : String) (roomNumber : Int)
    (date : Int) (passRange : String) : Bool × DbState :=
  match getPersonInfo s username with
  | none => (false, s)
  | some personInfo =>
    if getPassInfo s roomNumber passRange = -1 then (false, s)
    else if checkRangeHour env passRange = false
        ∧ ¬ personInfo.privilegeID = Privilege.Administrator then (false, s)
    else
      let pred := cancelDeletePred env personInfo date (getPassInfo s roomNumber passRange)
      (decide (0 < (s.bookings.filter pred).length),
        { s with bookings := s.bookings.filter (fun b => ¬ pred b) })

/-- `deleteUser` (`LaundryDAO.js:271-319`): resolve issuer and target; the
issuer must resolve and be an administrator and the target must resolve; then
delete the target's `pass_booking` rows, its `account` row and its `person`
row, in that order, and report success.  No `pass_lock` rows are deleted. -/
def deleteUser (s : DbState) (username userToBeRemoved : String) : Bool × DbState :=
  match getPersonInfo s username with
  | none => (false, s)
  | some adminInfo =>
    if ¬ adminInfo.privilegeID = Privilege.Administrator then (false, s)
    else
      match getPersonInfo s userToBeRemoved with
      | none => (false, s)
      | some userInfo =>
        (true,
          { s with
            bookings := s.bookings.filter (fun b => decide (¬ b.accountId = userInfo.accountID)),
            accounts := s.accounts.filter (fun a => decide (¬ a.id = userInfo.accountID)),
            persons := s.persons.filter (fun p => decide (¬ p.id = userInfo.personID)) })

/-- One display slot of the weekly grid (`{range, status, username}` objects
built in `_buildPassesSchedule`); `username = none` models the
`emptyParamEnum.Username` placeholder / a deleted `username` property. -/
structure Slot where
  range : String
  status : SlotStatus
  username : Option String
deriving DecidableEq, Repr

/-- One day of slots for a room (`PassDTO.js`). -/
structure PassDay where
  date : Int
  slots : List Slot
deriving DecidableEq, Repr

/-- The per-room element of `roomPasses` (`{roomNum, passes}` objects). -/
structure RoomPasses where
  roomNum : Int
  passes : List PassDay
deriving DecidableEq, Repr

/-- The weekly-schedule record the DAO returns (`PassScheduleDTO`, as the DAO's
call sites populate it); `none`/`[]` fields model `emptyParamEnum`
placeholders. -/
structure PassScheduleDTO where
  weekNumber : Option Int
  roomCount : Option Int
  weekDates : List Int
  roomPasses : List RoomPasses
  statusCode : ScheduleStatus
deriving DecidableEq, Repr

/-- A `PassScheduleDTO` whose data fields are `emptyParamEnum` placeholders. -/
def emptyScheduleDTO (code : ScheduleStatus) : PassScheduleDTO := ⟨none, none, [], [], code⟩

/-- One row handed to `_fillPassSchedule`: either a query row (all fields
present) or the `{date, room, range}` object built from the caller's
`getBookedPass` result in `getResidentPasses` (whose `username` property is
absent, hence `none`, and whose other fields are placeholders when the caller
has no booking). -/
structure FillRow where
  date : Option Int
  room : Option Int
  range : Option String
  username : Option String
deriving DecidableEq, Repr

/-- Innermost loop of `_fillPassSchedule`: overwrite status and username of a
slot whose range matches the row. -/
def fillSlot (row : FillRow) (status : SlotStatus) (sl : Slot) : Slot :=
  if row.range = some sl.range then { sl with status := status, username := row.username }
  else sl

/-- Day-level loop of `_fillPassSchedule`: visit the slot list of a day whose
date matches the row. -/
def fillDay (row : FillRow) (status : SlotStatus) (p : PassDay) : PassDay :=
  if row.date = some p.date then { p with slots := p.slots.map (fillSlot row status) }
  else p

/-- Room-level loop of `_fillPassSchedule`: visit the day list of a room whose
number matches the row. -/
def fillRoom (row : FillRow) (status : SlotStatus) (r : RoomPasses) : RoomPasses :=
  if row.room = some r.roomNum then { r with passes := r.passes.map (fillDay row status) }
  else r

/-- `_fillPassSchedule` (`LaundryDAO.js:490-511`): for each row in order, mark
every grid cell with matching room, date and range with the given status and
the row's username. -/
def fillPassSchedule (rows : List FillRow) (status : SlotStatus)
    (sched : PassScheduleDTO) : PassScheduleDTO :=
  rows.foldl
    (fun g row => { g with roomPasses := g.roomPasses.map (fillRoom row status) }) sched

/-- Insert into an ascending list (used to model the query's `ORDER BY
pass_schedule.room ASC`). -/
def insertAsc (x : Int) : List Int → List Int
  | [] => [x]
  | y :: ys => if x ≤ y then x :: y :: ys else y :: insertAsc x ys

/-- Ascending sort of a list of ints. -/
def sortAsc (l : List Int) : List Int := l.foldr insertAsc []

/-- `_getPassScheduleScheme` (`LaundryDAO.js:558-585`): the static grid scheme —
rooms in ascending order, each with the list of its configured ranges
(`ARRAY_AGG`, in row order); `null` when no configuration rows exist. -/
def getPassScheduleScheme (s : DbState) : Option (List (Int × List String)) :=
  if s.passSchedules.isEmpty then none
  else
    some ((sortAsc (s.passSchedules.map (fun ps => ps.room)).dedup).map (fun r =>
      (r, (s.passSchedules.filter (fun ps => decide (ps.room = r))).map
        (fun ps => ps.range))))

/-- `_buildPassesSchedule` (`LaundryDAO.js:521-555`): the canonical empty grid
for a week — for each configured room, one `PassDay` per week date, every slot
`Available` with no occupant; `null` when the scheme is missing.  Week dates
come from `_getWeekDates` via the environment. -/
def buildPassesSchedule (env : Env) (s : DbState) (week : Int) : Option PassScheduleDTO :=
  match getPassScheduleScheme s with
  | none => none
  | some scheme =>
    some
      { weekNumber := some week,
        roomCount := some (Int.ofNat scheme.length),
        weekDates := env.weekDates week,
        roomPasses := scheme.map (fun rc =>
          { roomNum := rc.1,
            passes := (env.weekDates week).map (fun d =>
              { date := d,
                slots := rc.2.map (fun rg => ⟨rg, .Available, none⟩) }) }),
        statusCode := .OK }

/-- `_weekStartAndEndDate` start (`LaundryDAO.js:514-518`): day 1 of the week —
computed by the same `dayjs` calls as `_getWeekDates`, hence the first week
date. -/
def weekStartDate (env : Env) (week : Int) : Int := (env.weekDates week).headD 0

/-- `_weekStartAndEndDate` end: day 7 of the week, the last week date. -/
def weekEndDate (env : Env) (week : Int) : Int := (env.weekDates week).getLastD 0

/-- Rows of the bookings query of `_getPassesSchedule` (`LaundryDAO.js:448-458`):
bookings within the week joined to account (username) and slot configuration
(room, range). -/
def bookedFillRows (env : Env) (s : DbState) (week : Int) : List FillRow :=
  s.bookings.filterMap (fun b =>
    if weekStartDate env week ≤ b.date ∧ b.date ≤ weekEndDate env week then
      match s.accounts.find? (fun a => decide (a.id = b.accountId)),
          s.passSchedules.find? (fun ps => decide (ps.id = b.passScheduleId)) with
      | some a, some ps => some ⟨some b.date, some ps.room, some ps.range, some a.username⟩
      | _, _ => none
    else none)

/-- Rows of the locks query of `_getPassesSchedule` (`LaundryDAO.js:460-470`):
live locks on today-or-later dates joined to account and slot configuration. -/
def lockedFillRows (env : Env) (s : DbState) : List FillRow :=
  s.locks.filterMap (fun l =>
    if env.today.serial ≤ l.passDate ∧ lockLive env l = true then
      match s.accounts.find? (fun a => decide (a.id = l.accountId)),
          s.passSchedules.find? (fun ps => decide (ps.id = l.passScheduleId)) with
      | some a, some ps => some ⟨some l.passDate, some ps.room, some ps.range, some a.username⟩
      | _, _ => none
    else none)

/-- `_getPassesSchedule` (`LaundryDAO.js:439-487`): build the canonical grid,
overlay week bookings as Taken, then live locks as Taken, and stamp the result
OK; `null` propagates from a missing scheme. -/
def getPassesSchedule (env : Env) (s : DbState) (week : Int) : Option PassScheduleDTO :=
  match buildPassesSchedule env s week with
  | none => none
  | some grid =>
    some { fillPassSchedule (lockedFillRows env s) .Taken
        (fillPassSchedule (bookedFillRows env s week) .Taken grid) with
      statusCode := .OK }

/-- `_checkWeekSchedule` (`LaundryDAO.js:428-436`): the corrected week must lie
within `offset` of the current `dayjs().week()`. -/
def checkWeekSchedule (env : Env) (week offset : Int) : Bool :=
  decide (env.today.week - offset ≤ week ∧ week ≤ env.today.week + offset)

/-- The username-scrubbing loop of `getResidentPasses`
(`LaundryDAO.js:373-379`): delete the `username` property of every slot. -/
def scrubUsernames (sched : PassScheduleDTO) : PassScheduleDTO :=
  { sched with
    roomPasses := sched.roomPasses.map (fun r =>
      { r with passes := r.passes.map (fun p =>
        { p with slots := p.slots.map (fun sl => { sl with username := none }) }) }) }

/-- `getResidentPasses` (`LaundryDAO.js:341-387`): week-window check (with the
`week + 1` correction) → InvalidWeek; unknown user → InvalidUser; privilege
neither Standard nor Administrator → InvalidPrivilege; otherwise take the week
schedule, overlay the caller's own booking (from `getBookedPass`) as
SelfBooking, scrub every slot's username, and return it with the requested
(uncorrected) week number.  `null` propagates from a missing scheme. -/
def getResidentPasses (env : Env) (s : DbState) (username : String) (week : Int) :
    Option PassScheduleDTO :=
  if checkWeekSchedule env (week + 1) 1 = false then some (emptyScheduleDTO .InvalidWeek)
  else
    match getPersonInfo s username with
    | none => some (emptyScheduleDTO .InvalidUser)
    | some personInfo =>
      if ¬ personInfo.privilegeID = Privilege.Standard
          ∧ ¬ personInfo.privilegeID = Privilege.Administrator then
        some (emptyScheduleDTO .InvalidPrivilege)
      else
        match getPassesSchedule env s (week + 1) with
        | none => none
        | some passesSchedule =>
          some { scrubUsernames
              (fillPassSchedule
                [⟨(getBookedPass env s username).date,
                  (getBookedPass env s username).roomNumber,
                  (getBookedPass env s username).passRange, none⟩]
                .SelfBooking passesSchedule) with
            weekNumber := some week }

/-- `getPasses` (`LaundryDAO.js:397-425`): the administrator view — unknown
user → InvalidUser; non-administrator → InvalidPrivilege; otherwise the week
schedule (usernames kept) with the requested week number. -/
def getPasses (env : Env) (s : DbState) (username : String) (week : Int) :
    Option PassScheduleDTO :=
  match getPersonInfo s username with
  | none => some (emptyScheduleDTO .InvalidUser)
  | some personInfo =>
    if ¬ personInfo.privilegeID = Privilege.Administrator then
      some (emptyScheduleDTO .InvalidPrivilege)
    else
      match getPassesSchedule env s (week + 1) with
      | none => none
      | some passesSchedule => some { passesSchedule with weekNumber := some week }

/-- The connection handle of `_executeQuery`'s world: the connected flag and
the statements actually delivered to the database backend. -/
structure Connection where
  connected : Bool
  sent : List String
deriving DecidableEq, Repr

/-- The properties the `LaundryDAO` constructor assigns on the instance
(`LaundryDAO.js:32-55`): the member names `this.<name>` can resolve to. -/
def daoPropNames : List String :=
  ["client", "logger", "activePassesAllowed", "totalMonthPassesAllowed", "lockDuration"]

/-- `_executeQuery` (`LaundryDAO.js:1109-1128`) with an oracle `fails` telling
which statements the backend rejects.  The try block throws when the connection
is down, otherwise delivers the statement and throws if the backend rejects it.
The catch block guards on the client being connected and then evaluates the
member chain `this.this.client.query('ROLLBACK')`: `"this"` is not among the
DAO's own properties (`daoPropNames`), so `this.this` is `undefined`, the
`.client` access itself throws, the inner catch logs it, and the original
error is rethrown — a `ROLLBACK` statement is delivered only if a property
named `"this"` existed.  Result: the (re)thrown error message, if any, and the
final connection. -/
def executeQuery (fails : String → Bool) (props : List String) (c : Connection)
    (q : String) : Option String × Connection :=
  if c.connected = false then
    (some "The connection to the database is down.", c)
  else if fails q then
    (some "query failed",
      if props.contains "this" then { c with sent := c.sent ++ [q, "ROLLBACK"] }
      else { c with sent := c.sent ++ [q] })
  else (none, { c with sent := c.sent ++ [q] })

/-- The active-booking test as claim C7 words it: the booking's date is
today-or-later and its range's end hour is at least the requested range's end
hour.  Spec-side definition, stated from the claim's words for comparison with
the source-side `bookingRangeGe` (which compares whole range strings). -/
def claimC7Active (env : Env) (s : DbState) (b : BookingRow) (range : String) : Bool :=
  decide (env.today.serial ≤ b.date) &&
    (match s.passSchedules.find? (fun ps => decide (ps.id = b.passScheduleId)) with
     | some ps => decide (parseEndHour range ≤ parseEndHour ps.range)
     | none => false)

/-- Lock rows held by one account (statement helper for the
one-live-lock-per-account invariant). -/
def countAccountLocks (s : DbState) (acc : Int) : Nat :=
  (s.locks.filter (fun l => decide (l.accountId = acc))).length

/-! ### Concrete fixtures

Small stored states and environments used by witnesses and counterexamples.
Common cast: person 1 / account 1 is resident `res` (Standard), person 2 /
account 2 is `adm` (Administrator); slot configuration rows use rooms 1-2 with
ranges `07-12` and `10-11`. -/

/-- Resident person row. -/
def personRes : PersonRow := ⟨1, "res@mail", Privilege.Standard⟩

/-- Administrator person row. -/
def personAdm : PersonRow := ⟨2, "adm@mail", Privilege.Administrator⟩

/-- Resident account row. -/
def accountRes : AccountRow := ⟨1, "res", 1⟩

/-- Administrator account row. -/
def accountAdm : AccountRow := ⟨2, "adm", 2⟩

/-- Slot configuration: room 1, range `07-12`. -/
def slotR1 : PassScheduleRow := ⟨1, 1, "07-12"⟩

/-- Slot configuration: room 2, range `10-11`. -/
def slotR2 : PassScheduleRow := ⟨2, 2, "10-11"⟩

/-- Slot configuration: room 2, range `07-12` (same range as room 1). -/
def slotR2a : PassScheduleRow := ⟨2, 2, "07-12"⟩

/-- An environment: today is serial 10 in week 1 of month 0, the clock reads
hour 8, `NOW()` is second 1000; week 1 consists of the single modelled date 11;
month 0 spans serials 2..31 (`_monthStartAndEndDate` with its
`startOf('month').add(1, 'day')` start). -/
def envBase : Env :=
  { today := ⟨10, 1, 0⟩, currentHour := 8, now := 1000,
    weekDates := fun w => if w = 1 then [11] else [],
    monthStart := fun _ => 2, monthEnd := fun _ => 31 }

/-- `envBase` at hour 13, past the end hour of range `07-12`. -/
def envLate : Env := { envBase with currentHour := 13 }

/-- C1 fixture: the resident already holds six bookings in month 0, all on
dates 3..8 — before today (serial 15), so none is active — and books a
seventh pass for tomorrow (serial 16). -/
def envC1 : Env := { envBase with today := ⟨15, 1, 0⟩ }

/-- C1 date argument: serial 16, week 1, month 0. -/
def dC1 : DateVal := ⟨16, 1, 0⟩

/-- C1 stored state: six month-0 bookings of account 1 on slot 1. -/
def sC1 : DbState :=
  { persons := [personRes, personAdm], accounts := [accountRes, accountAdm],
    passSchedules := [slotR1, slotR2],
    bookings := [⟨1, 3, 1, 1⟩, ⟨2, 4, 1, 1⟩, ⟨3, 5, 1, 1⟩, ⟨4, 6, 1, 1⟩, ⟨5, 7, 1, 1⟩,
      ⟨6, 8, 1, 1⟩],
    locks := [], nextBookingId := 7 }

/-- C3 fixture: an empty booking table; the request targets tomorrow
(serial 11) while the clock reads hour 13. -/
def sC3 : DbState :=
  { persons := [personRes, personAdm], accounts := [accountRes, accountAdm],
    passSchedules := [slotR1, slotR2], bookings := [], locks := [], nextBookingId := 1 }

/-- C4 fixture: the resident holds one booking and one lock row. -/
def sC4 : DbState :=
  { persons := [personRes, personAdm], accounts := [accountRes, accountAdm],
    passSchedules := [slotR1, slotR2],
    bookings := [⟨1, 11, 1, 1⟩], locks := [⟨900, 11, 1, 2⟩], nextBookingId := 2 }

/-- The state `deleteUser` produces from `sC4`: bookings, account and person of
the target gone, the lock row left behind. -/
def sC4After : DbState :=
  { persons := [personAdm], accounts := [accountAdm],
    passSchedules := [slotR1, slotR2],
    bookings := [], locks := [⟨900, 11, 1, 2⟩], nextBookingId := 2 }

/-- C5 fixture: one configured slot (room 1, `07-12`), and the resident's own
booking on date 11 — the single date of the modelled week. -/
def sC5 : DbState :=
  { persons := [personRes, personAdm], accounts := [accountRes, accountAdm],
    passSchedules := [slotR1],
    bookings := [⟨1, 11, 1, 1⟩], locks := [], nextBookingId := 2 }

/-- The schedule `getResidentPasses` returns for `envBase`/`sC5`: the caller's
own slot marked SelfBooking, no usernames anywhere. -/
def schedC5 : PassScheduleDTO :=
  ⟨some 0, some 1, [11],
    [⟨1, [⟨11, [⟨"07-12", SlotStatus.SelfBooking, none⟩]⟩]⟩],
    ScheduleStatus.OK⟩

/-- The schedule `getResidentPasses` returns for `envLate`/`sC5` (hour 13):
the caller's own not-yet-elapsed future booking is excluded by
`getBookedPass`'s end-hour filter, so its cell stays Taken. -/
def schedC5Late : PassScheduleDTO :=
  ⟨some 0, some 1, [11],
    [⟨1, [⟨11, [⟨"07-12", SlotStatus.Taken, none⟩]⟩]⟩],
    ScheduleStatus.OK⟩

/-- C6 fixture: two configured cells (room 1 and room 2, both `07-12`), no
bookings, no locks. -/
def sC6 : DbState :=
  { persons := [personRes, personAdm], accounts := [accountRes, accountAdm],
    passSchedules := [slotR1, slotR2a], bookings := [], locks := [], nextBookingId := 1 }

/-- `sC6` after the resident locks (room 1, date 11, `07-12`). -/
def sC6a : DbState := { sC6 with locks := [⟨1000, 11, 1, 1⟩] }

/-- `sC6a` after the resident locks (room 2, date 11, `07-12`): the first lock
is released, only the new one remains. -/
def sC6b : DbState := { sC6 with locks := [⟨1000, 11, 1, 2⟩] }

/-- C7 fixture: the resident's one future booking sits on room 2's `10-11`
slot; the request is for room 1's `07-12` slot. -/
def sC7 : DbState :=
  { persons := [personRes, personAdm], accounts := [accountRes, accountAdm],
    passSchedules := [slotR1, slotR2],
    bookings := [⟨1, 11, 1, 2⟩], locks := [], nextBookingId := 2 }

/-- C7 date argument: tomorrow. -/
def dC7 : DateVal := ⟨11, 1, 0⟩

/-- C8 fixture: the resident's one booking is tomorrow (serial 11) on the
`07-12` slot; combined with `envLate` (hour 13) its end hour has passed. -/
def sC8 : DbState :=
  { persons := [personRes, personAdm], accounts := [accountRes, accountAdm],
    passSchedules := [slotR1, slotR2],
    bookings := [⟨1, 11, 1, 1⟩], locks := [], nextBookingId := 2 }

/-- C10 fixture: the resident's one booking is tomorrow (serial 11) on the
`07-12` slot. -/
def sC10 : DbState :=
  { persons := [personRes, personAdm], accounts := [accountRes, accountAdm],
    passSchedules := [slotR1, slotR2],
    bookings := [⟨1, 11, 1, 1⟩], locks := [], nextBookingId := 2 }

/-! ### Claim C1 — month quota -/

/-- C1: the month-pass quota check is inert.  With six bookings of the caller
inside the requested month's window (all before today, so the active-pass check
passes), `_getPeriodBookedPasses` still reports 1 — its query groups by
`pass_booking.id`, so every group counts a single row and only `rows[0]` is
read — and a seventh `bookPass` in the same calendar month returns OK and
inserts a seventh row instead of returning PassCountExceeded. -/
theorem bookPass_seventh_pass_in_month_is_OK :
    (periodPassFilter sC1 1 (envC1.monthStart dC1.month) (envC1.monthEnd dC1.month)).length = 6
    ∧ getPeriodBookedPasses sC1 1 (envC1.monthStart dC1.month) (envC1.monthEnd dC1.month) = 1
    ∧ (getPersonInfo sC1 "res").map (fun t => t.accountID) = some 1
    ∧ (bookPass envC1 sC1 "res" 1 dC1 "07-12").1.statusCode = BookingStatus.OK
    ∧ (bookPass envC1 sC1 "res" 1 dC1 "07-12").2.bookings.length = 7 := by decide

/-- In a duplicate-free list, filtering for one value keeps at most one
element. -/
theorem nodup_filter_eq_length_le_one {l : List Int} (h : l.Nodup) (d : Int) :
    (l.filter (fun j => decide (j = d))).length ≤ 1 := by
  induction l with
  | nil => simp
  | cons x xs ih =>
    rw [List.nodup_cons] at h
    by_cases hx : x = d
    · subst hx
      have hnil : xs.filter (fun j => decide (j = x)) = [] := by
        rw [List.filter_eq_nil_iff]
        intro a ha
        simp only [decide_eq_true_eq]
        intro heq
        exact h.1 (heq ▸ ha)
      simp [List.filter_cons, hnil]
    · simp only [List.filter_cons, decide_eq_true_eq]
      rw [if_neg hx]
      exact ih h.2

/-- Every entry of `groupCounts` over a duplicate-free id list is at most 1. -/
theorem groupCounts_le_one {ids : List Int} (h : ids.Nodup) :
    ∀ c ∈ groupCounts ids, c ≤ 1 := by
  intro c hc
  rw [groupCounts] at hc
  rcases List.mem_map.mp hc with ⟨d, _, rfl⟩
  have := nodup_filter_eq_length_le_one h d
  omega

/-- With pairwise distinct booking ids (the `pass_booking` primary key), every
group of the `GROUP BY pass_booking.id` query counts exactly one row, so
`_getPeriodBookedPasses` can never report more than 1 — the month quota of 6
is unreachable. -/
theorem getPeriodBookedPasses_le_one (s : DbState) (accountID startPeriod endPeriod : Int)
    (hids : (s.bookings.map (fun b => b.id)).Nodup) :
    getPeriodBookedPasses s accountID startPeriod endPeriod ≤ 1 := by
  have hsub : List.Sublist
      ((periodPassFilter s accountID startPeriod endPeriod).map (fun b => b.id))
      (s.bookings.map (fun b => b.id)) :=
    (List.filter_sublist _).map _
  have hnodup : ((periodPassFilter s accountID startPeriod endPeriod).map
      (fun b => b.id)).Nodup := hids.sublist hsub
  rw [getPeriodBookedPasses]
  cases hgc : groupCounts ((periodPassFilter s accountID startPeriod endPeriod).map
      (fun b => b.id)) with
  | nil => norm_num
  | cons c rest =>
    have hc : c ≤ 1 := groupCounts_le_one hnodup c (hgc ▸ List.mem_cons_self c rest)
    simpa using hc

/-! ### Claim C2 — rollback on failure -/

/-- C2: when a statement fails on a connected client, `_executeQuery`'s catch
block never gets a ROLLBACK to the database — the member chain
`this.this.client` dereferences the nonexistent property `"this"` and itself
throws — so the only statement delivered is the failing one and the error is
rethrown (to be logged and converted to `null` by the public operation's
catch). -/
theorem executeQuery_never_issues_rollback (fails : String → Bool) (c : Connection)
    (q : String) (hconn : c.connected = true) (hfail : fails q = true) :
    executeQuery fails daoPropNames c q
      = (some "query failed", { c with sent := c.sent ++ [q] }) := by
  have hthis : "this" ∉ daoPropNames := by decide
  simp [executeQuery, hconn, hfail, hthis]

/-- Witness for C2: a failing INSERT after BEGIN on a connected client leaves
exactly BEGIN and the INSERT delivered — no ROLLBACK. -/
theorem executeQuery_never_issues_rollback_witness :
    executeQuery (fun _ => true) daoPropNames ⟨true, ["BEGIN"]⟩ "INSERT"
      = (some "query failed", ⟨true, ["BEGIN", "INSERT"]⟩) :=
  executeQuery_never_issues_rollback (fun _ => true) ⟨true, ["BEGIN"]⟩ "INSERT" rfl rfl

/-! ### Claim C3 — elapsed-range check on future dates -/

/-- Counterexample to C3: a request for tomorrow (`11 > envLate.today.serial =
10`) whose range `07-12` satisfies every other precondition — the user and the
slot resolve, the cell is neither booked nor locked, and the caller has no
active pass — is still rejected at hour 13: `lockPass` returns false and
`bookPass` returns InvalidPassInfo, because `_checkRangeHour` compares the end
hour with the clock regardless of the requested date. -/
theorem futureDate_elapsed_range_still_rejected :
    envLate.today.serial < 11
    ∧ ¬ getPersonInfo sC3 "res" = none
    ∧ ¬ getPassInfo sC3 1 "07-12" = -1
    ∧ getBookedPassID sC3 11 (getPassInfo sC3 1 "07-12") = -1
    ∧ getLockOwner envLate sC3 11 (getPassInfo sC3 1 "07-12") = -1
    ∧ getActivePasses envLate sC3 1 "07-12" < activePassesAllowed
    ∧ lockPass envLate sC3 "res" 1 11 "07-12" = (false, sC3)
    ∧ (bookPass envLate sC3 "res" 1 ⟨11, 1, 0⟩ "07-12").1.statusCode
        = BookingStatus.InvalidPassInfo := by decide

/-- C3 as amended: the elapsed-range check applies to every request regardless
of its date — whenever the requested range's end hour is before the current
hour, `lockPass` fails and `bookPass` returns InvalidPassInfo (given a
resolvable user and slot, and for `bookPass` a date inside the allowed
window). -/
theorem elapsed_range_check_applies_all_dates (env : Env) (s : DbState) (username : String)
    (roomNumber date : Int) (dateV : DateVal) (passRange : String) (pi : PersonInfo)
    (hpi : getPersonInfo s username = some pi)
    (hps : ¬ getPassInfo s roomNumber passRange = -1)
    (hr : parseEndHour passRange < env.currentHour) :
    lockPass env s username roomNumber date passRange = (false, s)
    ∧ (¬ (env.today.week > dateV.week ∨ dateV.week > env.today.week + 1) →
      ¬ dateV.serial < env.today.serial →
      (bookPass env s username roomNumber dateV passRange).1.statusCode
        = BookingStatus.InvalidPassInfo) := by
  have hcr : checkRangeHour env passRange = false := by
    simp only [checkRangeHour, decide_eq_false_iff_not, not_le]
    exact hr
  constructor
  · simp [lockPass, hpi, hps, hcr]
  · intro hweek hdate
    simp [bookPass, hpi, hps, hcr, hweek, hdate, emptyBookingDTO]

/-- Witness for the amended C3 at the counterexample's input. -/
theorem elapsed_range_check_applies_all_dates_witness :
    lockPass envLate sC3 "res" 1 11 "07-12" = (false, sC3)
    ∧ (bookPass envLate sC3 "res" 1 ⟨11, 1, 0⟩ "07-12").1.statusCode
        = BookingStatus.InvalidPassInfo := by
  have h := elapsed_range_check_applies_all_dates envLate sC3 "res" 1 11 ⟨11, 1, 0⟩ "07-12"
    ⟨1, 1, "res@mail", Privilege.Standard⟩ (by decide) (by decide) (by decide)
  exact ⟨h.1, h.2 (by decide) (by decide)⟩

/-! ### Claim C9 — InvalidWeek before InvalidUser -/

/-- C9: in `getResidentPasses` the week-window test comes first — an unknown
username requested with a week outside the resident-visible window yields
InvalidWeek, not InvalidUser. -/
theorem getResidentPasses_invalidWeek_before_invalidUser (env : Env) (s : DbState)
    (username : String) (week : Int)
    (_huser : getPersonInfo s username = none)
    (hweek : checkWeekSchedule env (week + 1) 1 = false) :
    getResidentPasses env s username week = some (emptyScheduleDTO ScheduleStatus.InvalidWeek)
    ∧ ¬ getResidentPasses env s username week
        = some (emptyScheduleDTO ScheduleStatus.InvalidUser) := by
  have hres : getResidentPasses env s username week
      = some (emptyScheduleDTO ScheduleStatus.InvalidWeek) := by
    simp [getResidentPasses, hweek]
  refine ⟨hres, ?_⟩
  rw [hres]
  simp [emptyScheduleDTO]

/-- Witness for C9: username `ghost` does not exist and week 5 is outside the
window, and the call answers InvalidWeek. -/
theorem getResidentPasses_invalidWeek_before_invalidUser_witness :
    getResidentPasses envBase sC3 "ghost" 5 = some (emptyScheduleDTO ScheduleStatus.InvalidWeek)
    ∧ ¬ getResidentPasses envBase sC3 "ghost" 5
        = some (emptyScheduleDTO ScheduleStatus.InvalidUser) :=
  getResidentPasses_invalidWeek_before_invalidUser envBase sC3 "ghost" 5
    (by decide) (by decide)

/-! ### Claim C10 — cancellation hour gate -/

/-- The `DELETE` predicate of `cancelBookedPass` does not read the current
hour, only today's date. -/
theorem cancelDeletePred_update_hour (env : Env) (h' : Int) (pinfo : PersonInfo)
    (date psid : Int) :
    cancelDeletePred { env with currentHour := h' } pinfo date psid
      = cancelDeletePred env pinfo date psid := by
  funext b
  simp [cancelDeletePred]

/-- C10: a non-administrator caller is turned away by `cancelBookedPass`
whenever the requested range's end hour is before the current hour — even for
a future-dated booking — with no row deleted; for an administrator the current
hour plays no part in the result. -/
theorem cancelBookedPass_nonadmin_hour_check (env : Env) (s : DbState) (username : String)
    (roomNumber date : Int) (passRange : String) (pi : PersonInfo)
    (hpi : getPersonInfo s username = some pi) :
    (¬ pi.privilegeID = Privilege.Administrator →
      ¬ getPassInfo s roomNumber passRange = -1 →
      parseEndHour passRange < env.currentHour →
      cancelBookedPass env s username roomNumber date passRange = (false, s))
    ∧ (pi.privilegeID = Privilege.Administrator →
      ∀ h', cancelBookedPass { env with currentHour := h' } s username roomNumber date passRange
        = cancelBookedPass env s username roomNumber date passRange) := by
  constructor
  · intro hadm hps hr
    have hcr : checkRangeHour env passRange = false := by
      simp only [checkRangeHour, decide_eq_false_iff_not, not_le]
      exact hr
    simp [cancelBookedPass, hpi, hps, hcr, hadm]
  · intro hadm h'
    simp [cancelBookedPass, hpi, hadm, cancelDeletePred_update_hour]

/-- Witness for C10: at hour 13 the resident cannot cancel the future-dated
booking on the `07-12` slot, while the administrator's result is the same at
hour 3 as at hour 8 (and, concretely, deletes the booking). -/
theorem cancelBookedPass_nonadmin_hour_check_witness :
    cancelBookedPass envLate sC10 "res" 1 11 "07-12" = (false, sC10)
    ∧ cancelBookedPass { envBase with currentHour := 3 } sC10 "adm" 1 11 "07-12"
      = cancelBookedPass envBase sC10 "adm" 1 11 "07-12"
    ∧ (cancelBookedPass envBase sC10 "adm" 1 11 "07-12").1 = true := by
  refine ⟨(cancelBookedPass_nonadmin_hour_check envLate sC10 "res" 1 11 "07-12"
      ⟨1, 1, "res@mail", Privilege.Standard⟩ (by decide)).1 (by decide) (by decide) (by decide),
    (cancelBookedPass_nonadmin_hour_check envBase sC10 "adm" 1 11 "07-12"
      ⟨2, 2, "adm@mail", Privilege.Administrator⟩ (by decide)).2 (by decide) 3,
    by decide⟩

/-! ### Claim C4 — user deletion cascade -/

/-- Entries a filter would drop can be removed before a `filterMap` that sends
them to `none` anyway. -/
theorem filterMap_eq_filterMap_filter {α β : Type} (f : α → Option β) (p : α → Bool)
    (l : List α) (h : ∀ a ∈ l, p a = false → f a = none) :
    l.filterMap f = (l.filter p).filterMap f := by
  induction l with
  | nil => rfl
  | cons x xs ih =>
    have ih' := ih (fun a ha => h a (List.mem_cons_of_mem x ha))
    cases hp : p x with
    | false =>
      have hfx : f x = none := h x (List.mem_cons_self x xs) hp
      rw [List.filter_cons, if_neg (by simp [hp]), List.filterMap_cons, hfx]
      exact ih'
    | true =>
      rw [List.filter_cons, if_pos (by simp [hp]), List.filterMap_cons, List.filterMap_cons]
      cases f x <;> rw [ih']

/-- Lock rows of an account that no longer resolves in `account` contribute
nothing to the lock overlay of the schedule views: the inner join drops them,
so removing them from the lock table does not change the overlay rows. -/
theorem lockedFillRows_ignores_unmatched_locks (env : Env) (st : DbState) (aid : Int)
    (hfind : st.accounts.find? (fun a => decide (a.id = aid)) = none) :
    lockedFillRows env st
      = lockedFillRows env
        { st with locks := st.locks.filter (fun l => decide (¬ l.accountId = aid)) } := by
  rw [lockedFillRows, lockedFillRows]
  apply filterMap_eq_filterMap_filter
  intro l _ hfalse
  have hacc : l.accountId = aid := by simpa using hfalse
  by_cases hc : env.today.serial ≤ l.passDate ∧ lockLive env l = true
  · rw [if_pos hc, hacc, hfind]
  · rw [if_neg hc]

/-- Counterexample to C4: deleting the resident succeeds, yet the resident's
`pass_lock` row survives the deletion — `deleteUser` removes bookings, account
and person but never touches `pass_lock`. -/
theorem deleteUser_leaves_lock_rows :
    (getPersonInfo sC4 "res").map (fun t => t.accountID) = some 1
    ∧ deleteUser sC4 "adm" "res" = (true, sC4After)
    ∧ ¬ sC4After.locks.filter (fun l => decide (l.accountId = 1)) = [] := by decide

/-- C4 as amended: after a successful `deleteUser`, none of the target's
booking rows remain and the target's account and person rows are gone (in the
source's order: bookings, then account, then person), but the target's lock
rows are NOT deleted — they merely become invisible to the schedule views,
because the lock overlay joins `pass_lock` to `account` and the join now drops
them. -/
theorem deleteUser_cascade_bookings_account_person (s : DbState) (admin target : String)
    (s' : DbState) (ti : PersonInfo)
    (hti : getPersonInfo s target = some ti)
    (h : deleteUser s admin target = (true, s')) :
    (∀ b ∈ s'.bookings, ¬ b.accountId = ti.accountID)
    ∧ (∀ a ∈ s'.accounts, ¬ a.id = ti.accountID)
    ∧ (∀ p ∈ s'.persons, ¬ p.id = ti.personID)
    ∧ s'.locks = s.locks
    ∧ (∀ env, lockedFillRows env s'
        = lockedFillRows env
          { s' with locks := s'.locks.filter (fun l => decide (¬ l.accountId = ti.accountID)) }) := by
  cases ha : getPersonInfo s admin with
  | none => simp only [deleteUser, ha] at h; simp at h
  | some ai =>
    simp only [deleteUser, ha, hti] at h
    by_cases hpriv : ¬ ai.privilegeID = Privilege.Administrator
    · rw [if_pos hpriv] at h; simp at h
    · rw [if_neg hpriv] at h
      have hs : ({ s with
          bookings := s.bookings.filter (fun b => decide (¬ b.accountId = ti.accountID)),
          accounts := s.accounts.filter (fun a => decide (¬ a.id = ti.accountID)),
          persons := s.persons.filter (fun p => decide (¬ p.id = ti.personID)) } : DbState)
          = s' := congrArg Prod.snd h
      subst hs
      refine ⟨?_, ?_, ?_, rfl, ?_⟩
      · intro b hb
        simp only [List.mem_filter, decide_eq_true_eq] at hb
        exact hb.2
      · intro a haMem
        simp only [List.mem_filter, decide_eq_true_eq] at haMem
        exact haMem.2
      · intro p hp
        simp only [List.mem_filter, decide_eq_true_eq] at hp
        exact hp.2
      · intro env
        apply lockedFillRows_ignores_unmatched_locks
        show (s.accounts.filter (fun a => decide (¬ a.id = ti.accountID))).find?
            (fun a => decide (a.id = ti.accountID)) = none
        rw [List.find?_eq_none]
        intro a haMem
        simp only [List.mem_filter, decide_eq_true_eq] at haMem
        simp only [decide_eq_true_eq]
        exact haMem.2

/-- Witness for the amended C4 at the counterexample's input. -/
theorem deleteUser_cascade_bookings_account_person_witness :
    (∀ b ∈ sC4After.bookings, ¬ b.accountId = 1)
    ∧ (∀ a ∈ sC4After.accounts, ¬ a.id = 1)
    ∧ (∀ p ∈ sC4After.persons, ¬ p.id = 1)
    ∧ sC4After.locks = sC4.locks
    ∧ (∀ env, lockedFillRows env sC4After
        = lockedFillRows env
          { sC4After with
            locks := sC4After.locks.filter (fun l => decide (¬ l.accountId = 1)) }) :=
  deleteUser_cascade_bookings_account_person sC4 "adm" "res" sC4After
    ⟨1, 1, "res@mail", Privilege.Standard⟩ (by decide) (by decide)

/-! ### Claim C8 — getBookedPass -/

/-- Membership in the rows of the `getBookedPass` query. -/
theorem mem_activeBookingRows {env : Env} {s : DbState} {aid : Int}
    {x : Int × Int × String} :
    x ∈ activeBookingRows env s aid ↔
    ∃ b ∈ s.bookings, ∃ ps,
      s.passSchedules.find? (fun ps => decide (ps.id = b.passScheduleId)) = some ps
      ∧ b.accountId = aid ∧ env.today.serial ≤ b.date
      ∧ env.currentHour ≤ parseEndHour ps.range ∧ x = (b.date, ps.room, ps.range) := by
  rw [activeBookingRows, List.mem_filterMap]
  constructor
  · rintro ⟨b, hb, hf⟩
    split at hf
    · rename_i ps heq
      split at hf
      · rename_i hc
        exact ⟨b, hb, ps, heq, hc.1, hc.2.1, hc.2.2, (Option.some.inj hf).symm⟩
      · exact absurd hf (by simp)
    · exact absurd hf (by simp)
  · rintro ⟨b, hb, ps, hps, h1, h2, h3, rfl⟩
    refine ⟨b, hb, ?_⟩
    simp only [hps]
    rw [if_pos ⟨h1, h2, h3⟩]

/-- Counterexample to C8: the resident's only booking is strictly in the
future (serial 11 > today's serial 10), yet at hour 13 `getBookedPass` answers
NoBooking — the end-hour filter of the query applies to future dates too. -/
theorem getBookedPass_future_booking_filtered_by_hour :
    (∃ b ∈ sC8.bookings, b.accountId = 1 ∧ envLate.today.serial < b.date)
    ∧ (getPersonInfo sC8 "res").map (fun t => t.accountID) = some 1
    ∧ getBookedPass envLate sC8 "res" = emptyBookingDTO BookingStatus.NoBooking := by decide

/-- C8 as amended: for a resolvable caller, `getBookedPass` answers NoBooking
exactly when the caller has no booking with `date ≥ today` AND range end hour
`≥` the current hour — the end-hour filter applies to every booking, future
dates included — and otherwise returns such a booking with OK. -/
theorem getBookedPass_characterization (env : Env) (s : DbState) (username : String)
    (pinfo : PersonInfo) (hpi : getPersonInfo s username = some pinfo) :
    ((getBookedPass env s username).statusCode = BookingStatus.NoBooking ↔
      ¬ ∃ b ∈ s.bookings, ∃ ps,
        s.passSchedules.find? (fun ps => decide (ps.id = b.passScheduleId)) = some ps
        ∧ b.accountId = pinfo.accountID ∧ env.today.serial ≤ b.date
        ∧ env.currentHour ≤ parseEndHour ps.range)
    ∧ ((getBookedPass env s username).statusCode = BookingStatus.OK →
      ∃ b ∈ s.bookings, ∃ ps,
        s.passSchedules.find? (fun ps => decide (ps.id = b.passScheduleId)) = some ps
        ∧ b.accountId = pinfo.accountID ∧ env.today.serial ≤ b.date
        ∧ env.currentHour ≤ parseEndHour ps.range
        ∧ getBookedPass env s username
            = ⟨some b.date, some ps.room, some ps.range, BookingStatus.OK⟩) := by
  have hmain : getBookedPass env s username
      = match activeBookingRows env s pinfo.accountID with
        | [] => emptyBookingDTO .NoBooking
        | (d, r, rg) :: _ => ⟨some d, some r, some rg, .OK⟩ := by
    rw [getBookedPass, hpi]
  cases hr : activeBookingRows env s pinfo.accountID with
  | nil =>
    rw [hr] at hmain
    constructor
    · rw [hmain]
      simp only [emptyBookingDTO, true_iff]
      rintro ⟨b, hb, ps, hps, h1, h2, h3⟩
      have hmem : (b.date, ps.room, ps.range) ∈ activeBookingRows env s pinfo.accountID :=
        mem_activeBookingRows.mpr ⟨b, hb, ps, hps, h1, h2, h3, rfl⟩
      rw [hr] at hmem
      exact absurd hmem (List.not_mem_nil _)
    · intro hOK
      rw [hmain] at hOK
      exact absurd hOK (by simp [emptyBookingDTO])
  | cons hd tl =>
    obtain ⟨d, r, rg⟩ := hd
    rw [hr] at hmain
    have hmem : ((d, r, rg) : Int × Int × String) ∈ activeBookingRows env s pinfo.accountID := by
      rw [hr]; exact List.mem_cons_self _ _
    obtain ⟨b, hb, ps, hps, h1, h2, h3, hx⟩ := mem_activeBookingRows.mp hmem
    constructor
    · rw [hmain]
      constructor
      · intro hcontra
        exact absurd hcontra (by simp)
      · intro hno
        exact absurd ⟨b, hb, ps, hps, h1, h2, h3⟩ hno
    · intro _
      refine ⟨b, hb, ps, hps, h1, h2, h3, ?_⟩
      rw [hmain]
      obtain ⟨hd1, hd2, hd3⟩ : d = b.date ∧ r = ps.room ∧ rg = ps.range := by
        simpa [Prod.ext_iff] using hx
      rw [hd1, hd2, hd3]

/-- Witness for the amended C8 at the counterexample's input: at hour 13 no
booking of the resident passes the end-hour filter, so NoBooking is warranted
by the characterization. -/
theorem getBookedPass_characterization_witness :
    ¬ ∃ b ∈ sC8.bookings, ∃ ps,
        sC8.passSchedules.find? (fun ps => decide (ps.id = b.passScheduleId)) = some ps
        ∧ b.accountId = 1 ∧ envLate.today.serial ≤ b.date
        ∧ envLate.currentHour ≤ parseEndHour ps.range :=
  (getBookedPass_characterization envLate sC8 "res"
      ⟨1, 1, "res@mail", Privilege.Standard⟩ (by decide)).1.mp (by decide)

/-! ### Claim C7 — active-pass scoping -/

/-- Membership in the filtered rows of `_getActivePasses`. -/
theorem mem_activePassFilter {env : Env} {s : DbState} {aid : Int} {range : String}
    {b : BookingRow} :
    b ∈ activePassFilter env s aid range ↔
    b ∈ s.bookings ∧ b.accountId = aid ∧ env.today.serial ≤ b.date
      ∧ bookingRangeGe s b range = true := by
  simp [activePassFilter, List.mem_filter, and_assoc]

/-- `groupCounts` of a nonempty id list starts with a count of at least 1. -/
theorem groupCounts_nonempty_head_ge_one {ids : List Int} (h : ¬ ids = []) :
    ∃ c rest, groupCounts ids = c :: rest ∧ 1 ≤ c := by
  cases hdd : ids.dedup with
  | nil => exact absurd ((List.dedup_eq_nil ids).mp hdd) h
  | cons d ds =>
    refine ⟨((ids.filter (fun j => decide (j = d))).length : Int),
      ds.map (fun i => ((ids.filter (fun j => decide (j = i))).length : Int)), ?_, ?_⟩
    · rw [groupCounts, hdd, List.map_cons]
    · have hdmem : d ∈ ids := List.mem_dedup.mp (by rw [hdd]; exact List.mem_cons_self d ds)
      have hmem : d ∈ ids.filter (fun j => decide (j = d)) :=
        List.mem_filter.mpr ⟨hdmem, by simp⟩
      have hlen : 0 < (ids.filter (fun j => decide (j = d))).length :=
        List.length_pos.mpr (List.ne_nil_of_mem hmem)
      omega

/-- The active-pass quota test `activePassesCount >= activePassesAllowed`
(with the source's quota of 1 and its `GROUP BY pass_booking.id` query) holds
exactly when the caller has at least one booking with `date ≥ today` whose
range string is `≥` the requested range string. -/
theorem getActivePasses_quota_iff (env : Env) (s : DbState) (aid : Int) (range : String) :
    activePassesAllowed ≤ getActivePasses env s aid range ↔
    ∃ b ∈ s.bookings, b.accountId = aid ∧ env.today.serial ≤ b.date
      ∧ bookingRangeGe s b range = true := by
  rw [getActivePasses]
  cases hfil : activePassFilter env s aid range with
  | nil =>
    show activePassesAllowed ≤ -1 ↔ _
    constructor
    · intro h
      exact absurd h (by norm_num [activePassesAllowed])
    · rintro ⟨b, hb, h1, h2, h3⟩
      have hmem := mem_activePassFilter.mpr ⟨hb, h1, h2, h3⟩
      rw [hfil] at hmem
      exact absurd hmem (List.not_mem_nil b)
  | cons x xs =>
    have hne : ¬ ((x :: xs).map (fun b => b.id)) = [] := by simp
    obtain ⟨c, rest, hgc, hc⟩ := groupCounts_nonempty_head_ge_one hne
    rw [hgc]
    show activePassesAllowed ≤ c ↔ _
    constructor
    · intro _
      have hx : x ∈ activePassFilter env s aid range := by
        rw [hfil]; exact List.mem_cons_self x xs
      obtain ⟨hb, h1, h2, h3⟩ := mem_activePassFilter.mp hx
      exact ⟨x, hb, h1, h2, h3⟩
    · intro _
      calc activePassesAllowed = 1 := rfl
        _ ≤ c := hc

/-- Counterexample to C7: the caller's only booking lies on the `10-11` slot,
whose end hour 11 is LESS than the requested range's end hour 12 — by the
claim's end-hour scoping no booking counts — yet `bookPass` for the free
`07-12` cell returns ExistentActivePass, because the query compares whole
range strings and `"10-11" >= "07-12"`. -/
theorem existentActivePass_despite_no_endHour_match :
    (bookPass envBase sC7 "res" 1 dC7 "07-12").1.statusCode
        = BookingStatus.ExistentActivePass
    ∧ (getPersonInfo sC7 "res").map (fun t => t.accountID) = some 1
    ∧ (∀ b ∈ sC7.bookings, ¬ (b.accountId = 1 ∧ claimC7Active envBase sC7 b "07-12" = true))
    ∧ sqlRangeGe "10-11" "07-12" = true := by decide

/-- C7 as amended: once the earlier checks pass, `bookPass` returns
ExistentActivePass exactly when the account has at least one booking with
`date ≥ today` whose range STRING is `≥` the requested range string in
character order (`pass.range >= $2` — ordering by start hour first), not by
comparing end hours. -/
theorem bookPass_existentActivePass_iff_range_string_ge (env : Env) (s : DbState)
    (username : String) (roomNumber : Int) (date : DateVal) (passRange : String)
    (pinfo : PersonInfo)
    (hweek : ¬ (env.today.week > date.week ∨ date.week > env.today.week + 1))
    (hdate : ¬ date.serial < env.today.serial)
    (hpi : getPersonInfo s username = some pinfo)
    (hps : ¬ getPassInfo s roomNumber passRange = -1)
    (hrange : ¬ checkRangeHour env passRange = false)
    (hbooked : getBookedPassID s date.serial (getPassInfo s roomNumber passRange) = -1)
    (hlock : ¬ (¬ getLockOwner env s date.serial (getPassInfo s roomNumber passRange)
          = pinfo.accountID
        ∧ ¬ getLockOwner env s date.serial (getPassInfo s roomNumber passRange) = -1)) :
    (bookPass env s username roomNumber date passRange).1.statusCode
        = BookingStatus.ExistentActivePass
      ↔ ∃ b ∈ s.bookings, b.accountId = pinfo.accountID ∧ env.today.serial ≤ b.date
          ∧ bookingRangeGe s b passRange = true := by
  rw [← getActivePasses_quota_iff env s pinfo.accountID passRange]
  have hmain : bookPass env s username roomNumber date passRange
      = (if activePassesAllowed ≤ getActivePasses env s pinfo.accountID passRange then
          (emptyBookingDTO .ExistentActivePass, s)
        else if totalMonthPassesAllowed ≤ getPeriodBookedPasses s pinfo.accountID
            (env.monthStart date.month) (env.monthEnd date.month) then
          (emptyBookingDTO .PassCountExceeded, s)
        else
          (⟨some date.serial, some roomNumber, some passRange, .OK⟩,
            (unlockPass
              (insertBooking s date.serial pinfo.accountID
                (getPassInfo s roomNumber passRange)) username).2)) := by
    simp only [bookPass, hpi]
    rw [if_neg hweek, if_neg hdate, if_neg hps, if_neg hrange,
      if_neg (not_not_intro hbooked), if_neg hlock]
  rw [hmain]
  by_cases hq : activePassesAllowed ≤ getActivePasses env s pinfo.accountID passRange
  · rw [if_pos hq]
    simpa [emptyBookingDTO] using hq
  · rw [if_neg hq]
    constructor
    · intro hstat
      by_cases hm : totalMonthPassesAllowed ≤ getPeriodBookedPasses s pinfo.accountID
          (env.monthStart date.month) (env.monthEnd date.month)
      · rw [if_pos hm] at hstat
        exact absurd hstat (by simp [emptyBookingDTO])
      · rw [if_neg hm] at hstat
        exact absurd hstat (by simp)
    · intro hq2
      exact absurd hq2 hq

/-- Witness for the amended C7 at the counterexample's input: the stored
`10-11` booking counts by string order, and ExistentActivePass is returned. -/
theorem bookPass_existentActivePass_iff_range_string_ge_witness :
    (bookPass envBase sC7 "res" 1 dC7 "07-12").1.statusCode
      = BookingStatus.ExistentActivePass :=
  (bookPass_existentActivePass_iff_range_string_ge envBase sC7 "res" 1 dC7 "07-12"
      ⟨1, 1, "res@mail", Privilege.Standard⟩ (by decide) (by decide) (by decide) (by decide)
      (by decide) (by decide) (by decide)).mpr
    ⟨⟨1, 11, 1, 2⟩, by decide, by decide, by decide, by decide⟩

/-! ### Claim C6 — single live lock per account -/

/-- `_getPersonInfo` never reads the lock table. -/
theorem getPersonInfo_update_locks (s : DbState) (L : List LockRow) (u : String) :
    getPersonInfo { s with locks := L } u = getPersonInfo s u := rfl

/-- `_getPassInfo` never reads the lock table. -/
theorem getPassInfo_update_locks (s : DbState) (L : List LockRow) (r : Int) (g : String) :
    getPassInfo { s with locks := L } r g = getPassInfo s r g := rfl

/-- Appending an element a filter rejects and re-filtering changes nothing. -/
theorem filter_stable_append {α : Type} (F : α → Bool) (L : List α) (x : α)
    (hx : F x = false) : (L.filter F ++ [x]).filter F = L.filter F := by
  rw [List.filter_append, List.filter_filter]
  simp [hx, Bool.and_self]

/-- A successful `lockPass` resolves the caller and replaces the state's locks
by: all locks of other accounts, plus the one new lock row for the requested
cell with `lock_start = NOW()` (the caller's previous locks are deleted by the
`unlockPass` call on the success path). -/
theorem lockPass_true_shape (env : Env) (s : DbState) (u : String) (r d : Int)
    (g : String) (s' : DbState) (h : lockPass env s u r d g = (true, s')) :
    ∃ pinfo, getPersonInfo s u = some pinfo ∧
      s' = { s with
        locks := s.locks.filter (fun l => decide (¬ l.accountId = pinfo.accountID))
          ++ [⟨env.now, d, pinfo.accountID, getPassInfo s r g⟩] } := by
  cases hpi : getPersonInfo s u with
  | none =>
    simp only [lockPass, hpi] at h
    exact absurd h (by simp)
  | some pinfo =>
    simp only [lockPass, hpi] at h
    refine ⟨pinfo, rfl, ?_⟩
    split_ifs at h with h1 h2 h3 h4 h5 h6
    all_goals try exact Bool.noConfusion (congrArg Prod.fst h)
    simp only [unlockPass, hpi] at h
    exact (congrArg Prod.snd h).symm

/-- C6: (i) successful locking preserves the at-most-one-lock-row-per-account
invariant; (ii) after the caller successfully locks cell X and then cell Y (a
different cell), no lock row of the caller on cell X remains; (iii) if nobody
else held cell X, `_getLockOwner` then reports cell X unowned at any instant,
so the slot resolver shows it Available again. -/
theorem lockPass_single_lock_and_releases_previous
    (env1 env2 : Env) (s s1 s2 : DbState) (u : String)
    (rX dX : Int) (gX : String) (rY dY : Int) (gY : String) (pinfo : PersonInfo)
    (hpi : getPersonInfo s u = some pinfo)
    (h1 : lockPass env1 s u rX dX gX = (true, s1))
    (h2 : lockPass env2 s1 u rY dY gY = (true, s2))
    (hcell : ¬ (dX = dY ∧ getPassInfo s rX gX = getPassInfo s rY gY)) :
    ((∀ acc, countAccountLocks s acc ≤ 1) → ∀ acc, countAccountLocks s2 acc ≤ 1)
    ∧ (∀ l ∈ s2.locks, l.accountId = pinfo.accountID →
        ¬ (l.passDate = dX ∧ l.passScheduleId = getPassInfo s rX gX))
    ∧ ((∀ l ∈ s.locks, l.passDate = dX → l.passScheduleId = getPassInfo s rX gX →
          l.accountId = pinfo.accountID) →
        ∀ env3, getLockOwner env3 s2 dX (getPassInfo s rX gX) = -1) := by
  obtain ⟨p1, hp1, hs1⟩ := lockPass_true_shape env1 s u rX dX gX s1 h1
  rw [hpi] at hp1
  obtain rfl : pinfo = p1 := Option.some.inj hp1
  subst hs1
  obtain ⟨p2, hp2, hs2⟩ := lockPass_true_shape env2 _ u rY dY gY s2 h2
  rw [getPersonInfo_update_locks, hpi] at hp2
  obtain rfl : pinfo = p2 := Option.some.inj hp2
  rw [getPassInfo_update_locks] at hs2
  have hlocks0 : s2.locks
      = (s.locks.filter (fun l => decide (¬ l.accountId = pinfo.accountID))
          ++ [(⟨env1.now, dX, pinfo.accountID, getPassInfo s rX gX⟩ : LockRow)]).filter
            (fun l => decide (¬ l.accountId = pinfo.accountID))
        ++ [(⟨env2.now, dY, pinfo.accountID, getPassInfo s rY gY⟩ : LockRow)] :=
    congrArg DbState.locks hs2
  have hlocks : s2.locks
      = s.locks.filter (fun l => decide (¬ l.accountId = pinfo.accountID))
        ++ [(⟨env2.now, dY, pinfo.accountID, getPassInfo s rY gY⟩ : LockRow)] := by
    rw [hlocks0, filter_stable_append _ _ _ (by simp)]
  refine ⟨?_, ?_, ?_⟩
  · intro h0 acc
    rw [countAccountLocks, hlocks, List.filter_append, List.length_append]
    by_cases hacc : acc = pinfo.accountID
    · have hleft : (s.locks.filter (fun l => decide (¬ l.accountId = pinfo.accountID))).filter
          (fun l => decide (l.accountId = acc)) = [] := by
        rw [List.filter_eq_nil_iff]
        intro l hl
        have hF := (List.mem_filter.mp hl).2
        simp only [decide_eq_true_eq] at hF ⊢
        rw [hacc]
        exact hF
      rw [hleft]
      simp [hacc]
    · have hright : ([(⟨env2.now, dY, pinfo.accountID, getPassInfo s rY gY⟩ : LockRow)]).filter
          (fun l => decide (l.accountId = acc)) = [] := by
        simp only [List.filter_cons, List.filter_nil, decide_eq_true_eq]
        rw [if_neg (fun heq => hacc heq.symm)]
      rw [hright]
      have hsub : List.Sublist
          ((s.locks.filter (fun l => decide (¬ l.accountId = pinfo.accountID))).filter
            (fun l => decide (l.accountId = acc)))
          (s.locks.filter (fun l => decide (l.accountId = acc))) :=
        (List.filter_sublist s.locks).filter _
      have hlen := hsub.length_le
      have hbound := h0 acc
      rw [countAccountLocks] at hbound
      simp only [List.length_nil]
      omega
  · intro l hl hacc
    rw [hlocks] at hl
    rcases List.mem_append.mp hl with hmem | hmem
    · have hF := (List.mem_filter.mp hmem).2
      simp only [decide_eq_true_eq] at hF
      exact absurd hacc hF
    · obtain rfl : l = ⟨env2.now, dY, pinfo.accountID, getPassInfo s rY gY⟩ :=
        List.mem_singleton.mp hmem
      rintro ⟨hd, hp⟩
      exact hcell ⟨hd.symm, hp.symm⟩
  · intro hother env3
    have hnone : s2.locks.find?
        (fun l => decide (l.passDate = dX)
          && decide (l.passScheduleId = getPassInfo s rX gX) && lockLive env3 l) = none := by
      rw [List.find?_eq_none]
      intro l hl
      rw [hlocks] at hl
      simp only [Bool.and_eq_true, decide_eq_true_eq, not_and]
      rcases List.mem_append.mp hl with hmem | hmem
      · have hF := (List.mem_filter.mp hmem).2
        have hlmem := (List.mem_filter.mp hmem).1
        simp only [decide_eq_true_eq] at hF
        rintro ⟨hpd, hpsid⟩ _
        exact hF (hother l hlmem hpd hpsid)
      · obtain rfl : l = ⟨env2.now, dY, pinfo.accountID, getPassInfo s rY gY⟩ :=
          List.mem_singleton.mp hmem
        rintro ⟨hpd, hpsid⟩ _
        exact hcell ⟨hpd.symm, hpsid.symm⟩
    rw [getLockOwner, hnone]

/-- Witness for C6 at the concrete two-cell scenario: locking room 1 then
room 2 leaves only the room-2 lock. -/
theorem lockPass_single_lock_and_releases_previous_witness :
    ((∀ acc, countAccountLocks sC6 acc ≤ 1) → ∀ acc, countAccountLocks sC6b acc ≤ 1)
    ∧ (∀ l ∈ sC6b.locks, l.accountId = 1 →
        ¬ (l.passDate = 11 ∧ l.passScheduleId = getPassInfo sC6 1 "07-12"))
    ∧ ((∀ l ∈ sC6.locks, l.passDate = 11 → l.passScheduleId = getPassInfo sC6 1 "07-12" →
          l.accountId = 1) →
        ∀ env3, getLockOwner env3 sC6b 11 (getPassInfo sC6 1 "07-12") = -1) :=
  lockPass_single_lock_and_releases_previous envBase envBase sC6 sC6a sC6b "res"
    1 11 "07-12" 2 11 "07-12" ⟨1, 1, "res@mail", Privilege.Standard⟩
    (by decide) (by decide) (by decide) (by decide)

/-! ### Claim C5 — resident view privacy -/

/-- `fillRoom` never changes the room number. -/
theorem fillRoom_roomNum (row : FillRow) (st : SlotStatus) (r : RoomPasses) :
    (fillRoom row st r).roomNum = r.roomNum := by
  rw [fillRoom]; split <;> rfl

/-- `fillDay` never changes the date. -/
theorem fillDay_date (row : FillRow) (st : SlotStatus) (p : PassDay) :
    (fillDay row st p).date = p.date := by
  rw [fillDay]; split <;> rfl

/-- `fillSlot` never changes the range. -/
theorem fillSlot_range (row : FillRow) (st : SlotStatus) (sl : Slot) :
    (fillSlot row st sl).range = sl.range := by
  rw [fillSlot]; split <;> rfl

/-- Every slot of the scrubbed schedule carries no username, and descends from
a slot of the unscrubbed schedule with the same room, date, range and
status. -/
theorem scrub_slots_shape (X : PassScheduleDTO) :
    ∀ room ∈ (scrubUsernames X).roomPasses, ∀ p ∈ room.passes, ∀ sl ∈ p.slots,
      sl.username = none
      ∧ ∃ room₀ ∈ X.roomPasses, room₀.roomNum = room.roomNum
        ∧ ∃ p₀ ∈ room₀.passes, p₀.date = p.date
          ∧ ∃ sl₀ ∈ p₀.slots, sl₀.range = sl.range ∧ sl₀.status = sl.status := by
  intro room hr p hp sl hsl
  simp only [scrubUsernames, List.mem_map] at hr
  obtain ⟨room₀, hr₀, rfl⟩ := hr
  simp only [List.mem_map] at hp
  obtain ⟨p₀, hp₀, rfl⟩ := hp
  simp only [List.mem_map] at hsl
  obtain ⟨sl₀, hsl₀, rfl⟩ := hsl
  exact ⟨rfl, room₀, hr₀, rfl, p₀, hp₀, rfl, sl₀, hsl₀, rfl, rfl⟩

/-- `_fillPassSchedule` with a single row sets the given status on every cell
whose room, date and range match the row. -/
theorem fill_single_marks_matching (row : FillRow) (st : SlotStatus) (X : PassScheduleDTO) :
    ∀ room ∈ (fillPassSchedule [row] st X).roomPasses, ∀ p ∈ room.passes,
      ∀ sl ∈ p.slots,
      row.room = some room.roomNum → row.date = some p.date → row.range = some sl.range →
      sl.status = st := by
  intro room hr p hp sl hsl hroom hdate hrange
  simp only [fillPassSchedule, List.foldl_cons, List.foldl_nil, List.mem_map] at hr
  obtain ⟨room₀, hr₀, rfl⟩ := hr
  rw [fillRoom_roomNum] at hroom
  rw [fillRoom, if_pos hroom] at hp
  simp only [List.mem_map] at hp
  obtain ⟨p₀, hp₀, rfl⟩ := hp
  rw [fillDay_date] at hdate
  rw [fillDay, if_pos hdate] at hsl
  simp only [List.mem_map] at hsl
  obtain ⟨sl₀, hsl₀, rfl⟩ := hsl
  rw [fillSlot_range] at hrange
  rw [fillSlot, if_pos hrange]

/-- Counterexample to C5: at hour 13 the resident's own booking is strictly in
the future (serial 11 > today's serial 10, so its date/range has not yet
elapsed — it is active in the claim's sense) and its date lies in the
requested week, yet the OK schedule `getResidentPasses` returns shows the cell
Taken, not SelfBooking: the SelfBooking overlay takes its cell from
`getBookedPass`, whose unconditional end-hour filter excludes this booking.
(The privacy half survives: every slot's username is scrubbed.) -/
theorem residentView_active_future_booking_shown_taken :
    envLate.today.serial < 11
    ∧ (∃ b ∈ sC5.bookings, b.accountId = 1 ∧ b.date = 11 ∧ b.passScheduleId = 1)
    ∧ (getPersonInfo sC5 "res").map (fun t => t.accountID) = some 1
    ∧ 11 ∈ envLate.weekDates (0 + 1)
    ∧ (∃ ps ∈ sC5.passSchedules, ps.id = 1 ∧ ps.room = 1 ∧ ps.range = "07-12")
    ∧ getResidentPasses envLate sC5 "res" 0 = some schedC5Late
    ∧ schedC5Late.statusCode = ScheduleStatus.OK
    ∧ (∀ room ∈ schedC5Late.roomPasses, ∀ p ∈ room.passes, ∀ sl ∈ p.slots,
        sl.status = SlotStatus.Taken ∧ ¬ sl.status = SlotStatus.SelfBooking
          ∧ sl.username = none) := by decide

/-- C5 as amended: whenever `getResidentPasses` returns an OK schedule, (i) no
slot of the returned schedule carries an occupant username — the scrub deletes
them all, the caller's own included — and (ii) every cell matching the booking
`getBookedPass` selects for the caller — the caller's booking with date ≥
today whose range end-hour has not passed the current hour — has status
SelfBooking rather than Taken.  A booking of the caller's that the end-hour
filter excludes (even a future-dated, not-yet-elapsed one, per the
`getBookedPass` behaviour established for C8) is shown Taken like anyone
else's. -/
theorem getResidentPasses_selfBooking_and_scrubbed (env : Env) (s : DbState)
    (username : String) (week : Int) (sched : PassScheduleDTO)
    (h : getResidentPasses env s username week = some sched)
    (hOK : sched.statusCode = ScheduleStatus.OK) :
    (∀ room ∈ sched.roomPasses, ∀ p ∈ room.passes, ∀ sl ∈ p.slots, sl.username = none)
    ∧ (∀ room ∈ sched.roomPasses, ∀ p ∈ room.passes, ∀ sl ∈ p.slots,
        (getBookedPass env s username).roomNumber = some room.roomNum →
        (getBookedPass env s username).date = some p.date →
        (getBookedPass env s username).passRange = some sl.range →
        sl.status = SlotStatus.SelfBooking) := by
  rw [getResidentPasses] at h
  by_cases hw : checkWeekSchedule env (week + 1) 1 = false
  · rw [if_pos hw] at h
    obtain rfl := Option.some.inj h
    exact absurd hOK (by simp [emptyScheduleDTO])
  · rw [if_neg hw] at h
    cases hpi : getPersonInfo s username with
    | none =>
      simp only [hpi] at h
      obtain rfl := Option.some.inj h
      exact absurd hOK (by simp [emptyScheduleDTO])
    | some pinfo =>
      simp only [hpi] at h
      by_cases hpriv : ¬ pinfo.privilegeID = Privilege.Standard
          ∧ ¬ pinfo.privilegeID = Privilege.Administrator
      · rw [if_pos hpriv] at h
        obtain rfl := Option.some.inj h
        exact absurd hOK (by simp [emptyScheduleDTO])
      · rw [if_neg hpriv] at h
        cases hsched : getPassesSchedule env s (week + 1) with
        | none =>
          simp only [hsched] at h
          exact absurd h (by simp)
        | some base =>
          simp only [hsched] at h
          obtain rfl := Option.some.inj h
          constructor
          · intro room hr p hp sl hsl
            exact (scrub_slots_shape _ room hr p hp sl hsl).1
          · intro room hr p hp sl hsl h1 h2 h3
            obtain ⟨-, room₀, hr₀, hnum, p₀, hp₀, hdt, sl₀, hsl₀, hrg, hstat⟩ :=
              scrub_slots_shape _ room hr p hp sl hsl
            rw [← hstat]
            exact fill_single_marks_matching
              ⟨(getBookedPass env s username).date, (getBookedPass env s username).roomNumber,
                (getBookedPass env s username).passRange, none⟩ .SelfBooking base
              room₀ hr₀ p₀ hp₀ sl₀ hsl₀
              (by rw [hnum]; exact h1) (by rw [hdt]; exact h2) (by rw [hrg]; exact h3)

/-- Witness for C5 at the concrete resident schedule: the caller's own booked
cell comes back SelfBooking and no slot carries a username. -/
theorem getResidentPasses_selfBooking_and_scrubbed_witness :
    (∀ room ∈ schedC5.roomPasses, ∀ p ∈ room.passes, ∀ sl ∈ p.slots, sl.username = none)
    ∧ (∀ room ∈ schedC5.roomPasses, ∀ p ∈ room.passes, ∀ sl ∈ p.slots,
        (getBookedPass envBase sC5 "res").roomNumber = some room.roomNum →
        (getBookedPass envBase sC5 "res").date = some p.date →
        (getBookedPass envBase sC5 "res").passRange = some sl.range →
        sl.status = SlotStatus.SelfBooking) :=
  getResidentPasses_selfBooking_and_scrubbed envBase sC5 "res" 0 schedC5
    (by decide) (by decide)

end Laundry
